import Mathlib

/- Shallow embedding of the dialect-transparent database access layer
under verification: the question-mark to dollar-parameter statement
translator, the insert RETURNING id emulation, the transaction context
manager of the client-server backend, backend selection and the SSL
policy. Each definition mirrors one function of the source file;
theorems state and settle the specification claims. -/

namespace DashDb

/-- One decimal digit character; 48 is the code of the zero digit. -/
def digitChar (n : Nat) : Char := Char.ofNat (48 + n)

/-- Decimal digits of a natural number, fuel-based so that the
definition is structurally recursive and evaluates by reduction.
Mirrors the decimal rendering the source obtains from template-string
interpolation of the parameter index. -/
def natDigitsAux : Nat → Nat → List Char
  | 0, _ => []
  | fuel + 1, n =>
    if n < 10 then [digitChar n]
    else natDigitsAux fuel (n / 10) ++ [digitChar (n % 10)]

def natDigits (n : Nat) : List Char := natDigitsAux (n + 1) n

/-- The scanning loop of replaceQMarksWithPgParams (source lines 43-139).
State variables mirror the mutable locals of the loop: the parameter
index and the four lexical flags inSingle, inDouble, inLineComment,
inBlockComment.  The source reads one character ch and a lookahead
next (empty at the end of the string); the three list patterns below
give the same access: no character left, a last character with no
lookahead, and a character with a lookahead. -/
def scanQMarks (paramIndex : Nat)
    (inSingle inDouble inLineComment inBlockComment : Bool) :
    List Char → List Char
  | [] => []
  | [ch] =>
    -- last character: every test of the lookahead next fails.
    if inLineComment then [ch]
    else if inBlockComment then [ch]
    else if inSingle then [ch]
    else if inDouble then [ch]
    else if ch = '\'' then [ch]
    else if ch = '"' then [ch]
    else if ch = '?' then '$' :: natDigits (paramIndex + 1)
    else [ch]
  | ch :: next :: rest2 =>
    if inLineComment then
      if ch = '\n' then
        ch :: scanQMarks paramIndex inSingle inDouble false inBlockComment (next :: rest2)
      else
        ch :: scanQMarks paramIndex inSingle inDouble inLineComment inBlockComment (next :: rest2)
    else if inBlockComment then
      if ch = '*' ∧ next = '/' then
        ch :: next :: scanQMarks paramIndex inSingle inDouble inLineComment false rest2
      else
        ch :: scanQMarks paramIndex inSingle inDouble inLineComment inBlockComment (next :: rest2)
    else if inSingle then
      if ch = '\'' ∧ next = '\'' then
        ch :: next :: scanQMarks paramIndex inSingle inDouble inLineComment inBlockComment rest2
      else if ch = '\'' then
        ch :: scanQMarks paramIndex false inDouble inLineComment inBlockComment (next :: rest2)
      else
        ch :: scanQMarks paramIndex inSingle inDouble inLineComment inBlockComment (next :: rest2)
    else if inDouble then
      if ch = '"' ∧ next = '"' then
        ch :: next :: scanQMarks paramIndex inSingle inDouble inLineComment inBlockComment rest2
      else if ch = '"' then
        ch :: scanQMarks paramIndex inSingle false inLineComment inBlockComment (next :: rest2)
      else
        ch :: scanQMarks paramIndex inSingle inDouble inLineComment inBlockComment (next :: rest2)
    else if ch = '-' ∧ next = '-' then
      ch :: next :: scanQMarks paramIndex inSingle inDouble true inBlockComment rest2
    else if ch = '/' ∧ next = '*' then
      ch :: next :: scanQMarks paramIndex inSingle inDouble inLineComment true rest2
    else if ch = '\'' then
      ch :: scanQMarks paramIndex true inDouble inLineComment inBlockComment (next :: rest2)
    else if ch = '"' then
      ch :: scanQMarks paramIndex inSingle true inLineComment inBlockComment (next :: rest2)
    else if ch = '?' then
      '$' :: natDigits (paramIndex + 1)
        ++ scanQMarks (paramIndex + 1) inSingle inDouble inLineComment inBlockComment (next :: rest2)
    else
      ch :: scanQMarks paramIndex inSingle inDouble inLineComment inBlockComment (next :: rest2)

/-- replaceQMarksWithPgParams (source lines 43-139): the statement
translator of the client-server backend. -/
def replaceQMarksWithPgParams (sql : String) : String :=
  ⟨scanQMarks 0 false false false false sql.data⟩

/-- Tokens of the classification pass described by the spec: each
character of the input is either copied verbatim or is a generic
marker in executable position. -/
inductive SqlTok where
  | copy (c : Char)
  | mark
deriving DecidableEq

/-- Classification following the words of the spec: a single
left-to-right scan over four mutually exclusive lexical states plus
the default state; a doubled quote inside a literal or identifier
continues it; a line comment ends at a newline and a block comment at
star-slash; a question mark is an executable-position marker exactly
when scanned in the default state.  This definition is the spec side
of the refinement claim about the translator. -/
def specClassify (inSingle inDouble inLineComment inBlockComment : Bool) :
    List Char → List SqlTok
  | [] => []
  | [ch] =>
    if inLineComment then [SqlTok.copy ch]
    else if inBlockComment then [SqlTok.copy ch]
    else if inSingle then [SqlTok.copy ch]
    else if inDouble then [SqlTok.copy ch]
    else if ch = '\'' then [SqlTok.copy ch]
    else if ch = '"' then [SqlTok.copy ch]
    else if ch = '?' then [SqlTok.mark]
    else [SqlTok.copy ch]
  | ch :: next :: rest2 =>
    if inLineComment then
      if ch = '\n' then
        SqlTok.copy ch :: specClassify inSingle inDouble false inBlockComment (next :: rest2)
      else
        SqlTok.copy ch :: specClassify inSingle inDouble inLineComment inBlockComment (next :: rest2)
    else if inBlockComment then
      if ch = '*' ∧ next = '/' then
        SqlTok.copy ch :: SqlTok.copy next :: specClassify inSingle inDouble inLineComment false rest2
      else
        SqlTok.copy ch :: specClassify inSingle inDouble inLineComment inBlockComment (next :: rest2)
    else if inSingle then
      if ch = '\'' ∧ next = '\'' then
        SqlTok.copy ch :: SqlTok.copy next :: specClassify inSingle inDouble inLineComment inBlockComment rest2
      else if ch = '\'' then
        SqlTok.copy ch :: specClassify false inDouble inLineComment inBlockComment (next :: rest2)
      else
        SqlTok.copy ch :: specClassify inSingle inDouble inLineComment inBlockComment (next :: rest2)
    else if inDouble then
      if ch = '"' ∧ next = '"' then
        SqlTok.copy ch :: SqlTok.copy next :: specClassify inSingle inDouble inLineComment inBlockComment rest2
      else if ch = '"' then
        SqlTok.copy ch :: specClassify inSingle false inLineComment inBlockComment (next :: rest2)
      else
        SqlTok.copy ch :: specClassify inSingle inDouble inLineComment inBlockComment (next :: rest2)
    else if ch = '-' ∧ next = '-' then
      SqlTok.copy ch :: SqlTok.copy next :: specClassify inSingle inDouble true inBlockComment rest2
    else if ch = '/' ∧ next = '*' then
      SqlTok.copy ch :: SqlTok.copy next :: specClassify inSingle inDouble inLineComment true rest2
    else if ch = '\'' then
      SqlTok.copy ch :: specClassify true inDouble inLineComment inBlockComment (next :: rest2)
    else if ch = '"' then
      SqlTok.copy ch :: specClassify inSingle true inLineComment inBlockComment (next :: rest2)
    else if ch = '?' then
      SqlTok.mark :: specClassify inSingle inDouble inLineComment inBlockComment (next :: rest2)
    else
      SqlTok.copy ch :: specClassify inSingle inDouble inLineComment inBlockComment (next :: rest2)

/-- Emission following the words of the spec: copied characters are
preserved verbatim; the k-th executable-position marker, counted left
to right starting at one, becomes the indexed placeholder dollar-k;
markers never counted do not appear (they were classified as copies). -/
def specEmit (k : Nat) : List SqlTok → List Char
  | [] => []
  | SqlTok.copy c :: ts => c :: specEmit k ts
  | SqlTok.mark :: ts => '$' :: natDigits (k + 1) ++ specEmit (k + 1) ts

/-- The translation the spec describes: classify, then emit. -/
def specTranslate (sql : String) : String :=
  ⟨specEmit 0 (specClassify false false false false sql.data)⟩

example : natDigits 1 = ['1'] := by decide
example : natDigits 12 = ['1', '2'] := by decide

example : replaceQMarksWithPgParams ("SELECT * FROM t WHERE a = ? AND b = '?' -- ?")
    = "SELECT * FROM t WHERE a = $1 AND b = '?' -- ?" := by decide

example : replaceQMarksWithPgParams ("INSERT INTO t(s) VALUES ('it''s a ?')")
    = "INSERT INTO t(s) VALUES ('it''s a ?')" := by decide

example : replaceQMarksWithPgParams ("a = ? /* ? */ AND b = ? AND c = \"x?\" AND d = ?")
    = "a = $1 /* ? */ AND b = $2 AND c = \"x?\" AND d = $3" := by decide

example : specTranslate ("SELECT * FROM t WHERE a = ? AND b = '?' -- ?")
    = "SELECT * FROM t WHERE a = $1 AND b = '?' -- ?" := by decide

/-- The scanning loop agrees, in every lexical state and at every
parameter index, with classification followed by emission. -/
theorem scan_eq_spec (paramIndex : Nat) (s d lc bc : Bool) (l : List Char) :
    scanQMarks paramIndex s d lc bc l = specEmit paramIndex (specClassify s d lc bc l) := by
  induction paramIndex, s, d, lc, bc, l using scanQMarks.induct <;>
    (try simp_all [scanQMarks, specClassify, specEmit]) <;>
    (split_ifs <;> simp_all [specEmit])

/-- A character that the scanner treats as inert in the default state:
it opens no literal, no identifier, no comment, and is not a marker.
The characters of an emitted placeholder are all of this kind. -/
def plainChar (c : Char) : Prop :=
  c ≠ '-' ∧ c ≠ '/' ∧ c ≠ '\'' ∧ c ≠ '"' ∧ c ≠ '?'

instance plainChar.dec : DecidablePred plainChar := by
  intro c
  unfold plainChar
  infer_instance

theorem digitChar_plain : ∀ n, n < 10 → plainChar (digitChar n) := by decide

theorem dollar_plain : plainChar '$' := by decide

theorem natDigitsAux_plain (fuel : Nat) :
    ∀ n c, c ∈ natDigitsAux fuel n → plainChar c := by
  induction fuel with
  | zero => intro n c hc; simp [natDigitsAux] at hc
  | succ fuel ih =>
    intro n c hc
    by_cases h : n < 10
    · simp [natDigitsAux, h] at hc
      subst hc
      exact digitChar_plain n h
    · simp [natDigitsAux, h] at hc
      rcases hc with hc | hc
      · exact ih _ _ hc
      · subst hc
        exact digitChar_plain (n % 10) (Nat.mod_lt _ (by norm_num))

theorem natDigits_plain (n : Nat) : ∀ c ∈ natDigits n, plainChar c :=
  natDigitsAux_plain (n + 1) n

set_option maxHeartbeats 1000000 in
/-- The scanner maps a nonempty input to a nonempty output whose head
is the dollar sign when the first character is a marker scanned in the
default state, and the first character itself otherwise. -/
theorem scan_cons (k : Nat) (s d lc bc : Bool) (ch : Char) (rest : List Char) :
    ∃ t, scanQMarks k s d lc bc (ch :: rest) =
      (if s = false ∧ d = false ∧ lc = false ∧ bc = false ∧ ch = '?'
        then '$' else ch) :: t := by
  cases rest with
  | nil =>
    simp only [scanQMarks]
    split_ifs <;> simp_all
  | cons nx rest2 =>
    simp only [scanQMarks]
    split_ifs <;> simp_all

/-- One inert character scanned in the default state is copied and the
state stays default. -/
theorem scan_plain_cons (k : Nat) (c : Char) (h : plainChar c) (l : List Char) :
    scanQMarks k false false false false (c :: l) =
      c :: scanQMarks k false false false false l := by
  obtain ⟨h1, h2, h3, h4, h5⟩ := h
  cases l with
  | nil => simp [scanQMarks, h3, h4, h5]
  | cons nx rest2 => simp [scanQMarks, h1, h2, h3, h4, h5]

/-- A block of inert characters scanned in the default state is copied
verbatim, the parameter index and the state unchanged. -/
theorem scan_plain_append (k : Nat) (ds : List Char)
    (hds : ∀ c ∈ ds, plainChar c) (w : List Char) :
    scanQMarks k false false false false (ds ++ w) =
      ds ++ scanQMarks k false false false false w := by
  induction ds with
  | nil => simp
  | cons c ds ih =>
    have hc : plainChar c := hds c (by simp)
    have hds2 : ∀ x ∈ ds, plainChar x := fun x hx => hds x (by simp [hx])
    simp only [List.cons_append]
    rw [scan_plain_cons k c hc, ih hds2]

/-- Like scan_cons, with the head given as an alternative. -/
theorem scan_cons_or (k : Nat) (s d lc bc : Bool) (ch : Char) (rest : List Char) :
    ∃ c0 t, scanQMarks k s d lc bc (ch :: rest) = c0 :: t ∧ (c0 = '$' ∨ c0 = ch) := by
  obtain ⟨t, ht⟩ := scan_cons k s d lc bc ch rest
  refine ⟨_, t, ht, ?_⟩
  split_ifs <;> simp

/-- One step of the scanner inside a line comment. -/
theorem scan_step_lc (k : Nat) (s d bc : Bool) (ch : Char) (w : List Char) :
    scanQMarks k s d true bc (ch :: w)
      = ch :: scanQMarks k s d (if ch = '\n' then false else true) bc w := by
  cases w with
  | nil => by_cases h : ch = '\n' <;> simp [scanQMarks, h]
  | cons c w2 => by_cases h : ch = '\n' <;> simp [scanQMarks, h]

/-- One copying step of the scanner inside a block comment. -/
theorem scan_step_bc (k : Nat) (s d : Bool) (ch : Char) (w : List Char)
    (h : ∀ c, w.head? = some c → ¬(ch = '*' ∧ c = '/')) :
    scanQMarks k s d false true (ch :: w) = ch :: scanQMarks k s d false true w := by
  cases w with
  | nil => simp [scanQMarks]
  | cons c w2 =>
    have hc := h c rfl
    simp [scanQMarks, hc]

/-- The closing quote of a single-quoted literal. -/
theorem scan_step_s_close (k : Nat) (d : Bool) (w : List Char)
    (h : ∀ c, w.head? = some c → ¬c = '\'') :
    scanQMarks k true d false false ('\'' :: w)
      = '\'' :: scanQMarks k false d false false w := by
  cases w with
  | nil => simp [scanQMarks]
  | cons c w2 =>
    have hc := h c rfl
    simp [scanQMarks, hc]

/-- A copying step inside a single-quoted literal. -/
theorem scan_step_s_copy (ch : Char) (h : ¬ch = '\'') (k : Nat) (d : Bool)
    (w : List Char) :
    scanQMarks k true d false false (ch :: w)
      = ch :: scanQMarks k true d false false w := by
  cases w with
  | nil => simp [scanQMarks, h]
  | cons c w2 => simp [scanQMarks, h]

/-- The closing quote of a double-quoted identifier. -/
theorem scan_step_d_close (k : Nat) (w : List Char)
    (h : ∀ c, w.head? = some c → ¬c = '"') :
    scanQMarks k false true false false ('"' :: w)
      = '"' :: scanQMarks k false false false false w := by
  cases w with
  | nil => simp [scanQMarks]
  | cons c w2 =>
    have hc := h c rfl
    simp [scanQMarks, hc]

/-- A copying step inside a double-quoted identifier. -/
theorem scan_step_d_copy (ch : Char) (h : ¬ch = '"') (k : Nat) (w : List Char) :
    scanQMarks k false true false false (ch :: w)
      = ch :: scanQMarks k false true false false w := by
  cases w with
  | nil => simp [scanQMarks, h]
  | cons c w2 => simp [scanQMarks, h]

/-- An opening single quote in the default state. -/
theorem scan_step_open_single (k : Nat) (w : List Char) :
    scanQMarks k false false false false ('\'' :: w)
      = '\'' :: scanQMarks k true false false false w := by
  cases w with
  | nil => simp [scanQMarks]
  | cons c w2 => simp [scanQMarks]

/-- An opening double quote in the default state. -/
theorem scan_step_open_double (k : Nat) (w : List Char) :
    scanQMarks k false false false false ('"' :: w)
      = '"' :: scanQMarks k false true false false w := by
  cases w with
  | nil => simp [scanQMarks]
  | cons c w2 => simp [scanQMarks]

/-- A copying step in the default state for a character that starts
nothing: no comment pair with what follows, no quote, no marker. -/
theorem scan_step_default (k : Nat) (ch : Char) (w : List Char)
    (h1 : ∀ c, w.head? = some c → ¬(ch = '-' ∧ c = '-'))
    (h2 : ∀ c, w.head? = some c → ¬(ch = '/' ∧ c = '*'))
    (h3 : ¬ch = '\'') (h4 : ¬ch = '"') (h5 : ¬ch = '?') :
    scanQMarks k false false false false (ch :: w)
      = ch :: scanQMarks k false false false false w := by
  cases w with
  | nil => simp [scanQMarks, h3, h4, h5]
  | cons c w2 =>
    have hc1 := h1 c rfl
    have hc2 := h2 c rfl
    simp [scanQMarks, hc1, hc2, h3, h4, h5]

set_option maxHeartbeats 2000000 in
/-- Scanning the output of a scan, in the same lexical state and at an
arbitrary parameter index, copies it unchanged: the first pass leaves
no marker in executable position, and the characters of the emitted
placeholders open no literal, identifier or comment. -/
theorem scan_idem (k : Nat) (s d lc bc : Bool) (l : List Char) :
    ∀ k2, scanQMarks k2 s d lc bc (scanQMarks k s d lc bc l) =
      scanQMarks k s d lc bc l := by
  induction k, s, d, lc, bc, l using scanQMarks.induct <;> intro k2
  -- case1: empty input
  · simp [scanQMarks]
  -- case2 to case7 and case9: one-character inputs that are copied
  · simp [scanQMarks]
  · simp_all [scanQMarks]
  · simp_all [scanQMarks]
  · simp_all [scanQMarks]
  · simp_all [scanQMarks]
  · simp_all [scanQMarks]
  -- case8: a lone marker becomes a placeholder of inert characters
  · rename_i k s d lc bc hlc hbc hs hd hq1 hq2
    simp only [Bool.not_eq_true] at hlc hbc hs hd
    subst hlc; subst hbc; subst hs; subst hd
    have hds : ∀ c ∈ '$' :: natDigits (k + 1), plainChar c := by
      intro c hc
      rcases List.mem_cons.mp hc with hh | hh
      · subst hh; exact dollar_plain
      · exact natDigits_plain _ c hh
    have happ := scan_plain_append k2 ('$' :: natDigits (k + 1)) hds []
    simp only [List.append_nil] at happ
    simp [scanQMarks, happ]
  -- case9: any other single character
  · simp_all [scanQMarks]
  -- case10 and case11: inside a line comment
  · simp_all [scan_step_lc]
  · simp_all [scan_step_lc]
  -- case12: end of a block comment
  · rename_i k s d lc ch nx rest2 hlc hpair ih
    obtain ⟨h1, h2⟩ := hpair
    subst h1; subst h2
    simp only [Bool.not_eq_true] at hlc
    subst hlc
    simp_all [scanQMarks]
  -- case13: a copying step inside a block comment
  · rename_i k s d lc ch nx rest2 hlc hpair ih
    simp only [Bool.not_eq_true] at hlc
    subst hlc
    obtain ⟨c0, t0, h0, hc0⟩ := scan_cons_or k s d false true nx rest2
    have hstep1 : scanQMarks k s d false true (ch :: nx :: rest2)
        = ch :: scanQMarks k s d false true (nx :: rest2) := by
      simp [scanQMarks, hpair]
    have hh : ∀ c, (c0 :: t0).head? = some c → ¬(ch = '*' ∧ c = '/') := by
      intro c hc
      simp only [List.head?_cons, Option.some.injEq] at hc
      subst hc
      rcases hc0 with h | h
      · subst h; rintro ⟨_, hb⟩; exact absurd hb (by decide)
      · subst h; exact hpair
    rw [hstep1, h0, scan_step_bc k2 s d ch (c0 :: t0) hh, ← h0, ih]
  -- case14: a doubled quote inside a single-quoted literal
  · rename_i k d lc bc ch nx rest2 hlc hbc hpair ih
    obtain ⟨h1, h2⟩ := hpair
    subst h1; subst h2
    simp only [Bool.not_eq_true] at hlc hbc
    subst hlc; subst hbc
    simp_all [scanQMarks]
  -- case15: the closing quote of a single-quoted literal
  · rename_i k d lc bc nx rest2 hlc hbc hpair ih
    simp only [Bool.not_eq_true] at hlc hbc
    subst hlc; subst hbc
    have hnx : ¬nx = '\'' := fun hh => hpair ⟨rfl, hh⟩
    obtain ⟨c0, t0, h0, hc0⟩ := scan_cons_or k false d false false nx rest2
    have hstep1 : scanQMarks k true d false false ('\'' :: nx :: rest2)
        = '\'' :: scanQMarks k false d false false (nx :: rest2) := by
      simp [scanQMarks, hnx]
    have hh : ∀ c, (c0 :: t0).head? = some c → ¬c = '\'' := by
      intro c hc
      simp only [List.head?_cons, Option.some.injEq] at hc
      subst hc
      rcases hc0 with h | h
      · subst h; decide
      · subst h; exact hnx
    rw [hstep1, h0, scan_step_s_close k2 d (c0 :: t0) hh, ← h0, ih]
  -- case16: a copying step inside a single-quoted literal
  · rename_i k d lc bc ch nx rest2 hlc hbc hpair hch ih
    simp only [Bool.not_eq_true] at hlc hbc
    subst hlc; subst hbc
    rw [scan_step_s_copy ch hch k d (nx :: rest2)]
    rw [scan_step_s_copy ch hch k2 d
      (scanQMarks k true d false false (nx :: rest2))]
    rw [ih]
  -- case17: a doubled quote inside a double-quoted identifier
  · rename_i k s lc bc ch nx rest2 hlc hbc hs hpair ih
    obtain ⟨h1, h2⟩ := hpair
    subst h1; subst h2
    simp only [Bool.not_eq_true] at hlc hbc hs
    subst hlc; subst hbc; subst hs
    simp_all [scanQMarks]
  -- case18: the closing quote of a double-quoted identifier
  · rename_i k s lc bc nx rest2 hlc hbc hs hpair ih
    simp only [Bool.not_eq_true] at hlc hbc hs
    subst hlc; subst hbc; subst hs
    have hnx : ¬nx = '"' := fun hh => hpair ⟨rfl, hh⟩
    obtain ⟨c0, t0, h0, hc0⟩ := scan_cons_or k false false false false nx rest2
    have hstep1 : scanQMarks k false true false false ('"' :: nx :: rest2)
        = '"' :: scanQMarks k false false false false (nx :: rest2) := by
      simp [scanQMarks, hnx]
    have hh : ∀ c, (c0 :: t0).head? = some c → ¬c = '"' := by
      intro c hc
      simp only [List.head?_cons, Option.some.injEq] at hc
      subst hc
      rcases hc0 with h | h
      · subst h; decide
      · subst h; exact hnx
    rw [hstep1, h0, scan_step_d_close k2 (c0 :: t0) hh, ← h0, ih]
  -- case19: a copying step inside a double-quoted identifier
  · rename_i k s lc bc ch nx rest2 hlc hbc hs hpair hch ih
    simp only [Bool.not_eq_true] at hlc hbc hs
    subst hlc; subst hbc; subst hs
    rw [scan_step_d_copy ch hch k (nx :: rest2)]
    rw [scan_step_d_copy ch hch k2
      (scanQMarks k false true false false (nx :: rest2))]
    rw [ih]
  -- case20: the start of a line comment
  · rename_i k s d lc bc ch nx rest2 hlc hbc hs hd hpair ih
    obtain ⟨h1, h2⟩ := hpair
    subst h1; subst h2
    simp only [Bool.not_eq_true] at hlc hbc hs hd
    subst hlc; subst hbc; subst hs; subst hd
    simp_all [scanQMarks]
  -- case21: the start of a block comment
  · rename_i k s d lc bc ch nx rest2 hlc hbc hs hd hp1 hpair ih
    obtain ⟨h1, h2⟩ := hpair
    subst h1; subst h2
    simp only [Bool.not_eq_true] at hlc hbc hs hd
    subst hlc; subst hbc; subst hs; subst hd
    simp_all [scanQMarks]
  -- case22: an opening single quote
  · rename_i k s d lc bc nx rest2 hlc hbc hs hd hp1 hp2 ih
    simp only [Bool.not_eq_true] at hlc hbc hs hd
    subst hlc; subst hbc; subst hs; subst hd
    rw [scan_step_open_single k (nx :: rest2)]
    rw [scan_step_open_single k2
      (scanQMarks k true false false false (nx :: rest2))]
    rw [ih]
  -- case23: an opening double quote
  · rename_i k s d lc bc nx rest2 hlc hbc hs hd hp1 hp2 hp3 ih
    simp only [Bool.not_eq_true] at hlc hbc hs hd
    subst hlc; subst hbc; subst hs; subst hd
    rw [scan_step_open_double k (nx :: rest2)]
    rw [scan_step_open_double k2
      (scanQMarks k false true false false (nx :: rest2))]
    rw [ih]
  -- case24: a marker in executable position
  · rename_i k s d lc bc nx rest2 hlc hbc hs hd hp1 hp2 hp3 hp4 ih
    simp only [Bool.not_eq_true] at hlc hbc hs hd
    subst hlc; subst hbc; subst hs; subst hd
    have hds : ∀ c ∈ '$' :: natDigits (k + 1), plainChar c := by
      intro c hc
      rcases List.mem_cons.mp hc with hh | hh
      · subst hh; exact dollar_plain
      · exact natDigits_plain _ c hh
    have hinner : scanQMarks k false false false false ('?' :: nx :: rest2)
        = '$' :: natDigits (k + 1)
          ++ scanQMarks (k + 1) false false false false (nx :: rest2) := by
      simp [scanQMarks]
    have happ := scan_plain_append k2 ('$' :: natDigits (k + 1)) hds
      (scanQMarks (k + 1) false false false false (nx :: rest2))
    rw [hinner, happ, ih]
  -- case25: any other character in the default state
  · rename_i k s d lc bc ch nx rest2 hlc hbc hs hd hpair1 hpair2 hq hdq hqm ih
    simp only [Bool.not_eq_true] at hlc hbc hs hd
    subst hlc; subst hbc; subst hs; subst hd
    obtain ⟨c0, t0, h0, hc0⟩ := scan_cons_or k false false false false nx rest2
    have hh1 : ∀ c, (nx :: rest2).head? = some c → ¬(ch = '-' ∧ c = '-') := by
      intro c hc
      simp only [List.head?_cons, Option.some.injEq] at hc
      subst hc; exact hpair1
    have hh2 : ∀ c, (nx :: rest2).head? = some c → ¬(ch = '/' ∧ c = '*') := by
      intro c hc
      simp only [List.head?_cons, Option.some.injEq] at hc
      subst hc; exact hpair2
    have hstep1 := scan_step_default k ch (nx :: rest2) hh1 hh2 hq hdq hqm
    have hg1 : ∀ c, (c0 :: t0).head? = some c → ¬(ch = '-' ∧ c = '-') := by
      intro c hc
      simp only [List.head?_cons, Option.some.injEq] at hc
      subst hc
      rcases hc0 with h | h
      · subst h; rintro ⟨_, hb⟩; exact absurd hb (by decide)
      · subst h; exact hpair1
    have hg2 : ∀ c, (c0 :: t0).head? = some c → ¬(ch = '/' ∧ c = '*') := by
      intro c hc
      simp only [List.head?_cons, Option.some.injEq] at hc
      subst hc
      rcases hc0 with h | h
      · subst h; rintro ⟨_, hb⟩; exact absurd hb (by decide)
      · subst h; exact hpair2
    rw [hstep1, h0, scan_step_default k2 ch (c0 :: t0) hg1 hg2 hq hdq hqm,
      ← h0, ih]

/-- C1: for every SQL input string, the statement translator replaces
each generic marker outside single-quoted literals, double-quoted
identifiers, line comments and block comments by the indexed
placeholder dollar-k, where k counts only such executable-position
markers left to right starting at one; markers inside literals or
comments (a doubled quote continuing the enclosing literal) are left
unchanged and uncounted, and every other character is preserved
verbatim.  Stated as equality with the spec-side classify-and-emit
translation. -/
theorem C1_translator_matches_spec (sql : String) :
    replaceQMarksWithPgParams sql = specTranslate sql := by
  unfold replaceQMarksWithPgParams specTranslate
  rw [scan_eq_spec]

/-- C10: the statement translator is idempotent: translating an
already translated statement changes nothing, because the first pass
removed every executable-position marker and the emitted placeholders
introduce no quote or comment delimiter. -/
theorem C10_translator_idempotent (sql : String) :
    replaceQMarksWithPgParams (replaceQMarksWithPgParams sql)
      = replaceQMarksWithPgParams sql := by
  unfold replaceQMarksWithPgParams
  exact congrArg String.mk (scan_idem 0 false false false false sql.data 0)

/- Transaction context manager of the client-server backend (source
lines 175-224).  The AsyncLocalStorage binding of one call chain is
the tx field of the state; the pool is the list of idle connection
identifiers plus a counter for opening fresh ones; the behaviour of
the driver (success or thrown error of each issued command) is an
oracle parameter; the commands actually issued are returned as an
effect trace. -/

/-- The trim of the source (String(sql).trim()): leading and trailing
whitespace removed.  ASCII whitespace model. -/
def jsTrim (s : String) : String :=
  ⟨((s.data.dropWhile Char.isWhitespace).reverse.dropWhile
      Char.isWhitespace).reverse⟩

/-- The replace of source line 183: on a string already trimmed (the
only way the source applies it), removing the first match of one or
more semicolons followed by trailing whitespace at the end of the
string is exactly dropping the trailing run of semicolons, since a
trimmed string ends in no whitespace. -/
def stripTrailingSemis (s : String) : String :=
  ⟨(s.data.reverse.dropWhile fun c => c == ';').reverse⟩

/-- Source lines 183-184: trim, strip trailing semicolons, uppercase
(ASCII model of toUpperCase). -/
def normalizeSqlText (sql : String) : String :=
  ⟨(stripTrailingSemis (jsTrim sql)).data.map Char.toUpper⟩

/-- A backend command observed during one exec call: issued on the
leased connection bound to the call chain, or through the shared
pool. -/
inductive Effect where
  | clientQuery (c : Nat) (text : String)
  | poolQuery (text : String)
deriving DecidableEq

/-- One row of a driver result; only the id field matters to this
layer.  none models an absent or null id. -/
structure PgRow where
  id : Option Int
deriving DecidableEq

/-- A driver result: the reported affected-row count (null for
statements without one) and the returned rows. -/
structure PgResult where
  rowCount : Option Nat
  rows : List PgRow
deriving DecidableEq

/-- The oracle for the backend driver: the outcome of a command on a
given leased connection, and of a command through the pool. -/
structure PoolEnv where
  clientResult : Nat → String → Except String PgResult
  poolResult : String → Except String PgResult

/-- State of the facade: the connection bound to the call chain (the
AsyncLocalStorage store), the idle connections of the pool, and the
next fresh connection identifier. -/
structure DbState where
  tx : Option Nat
  avail : List Nat
  nextId : Nat
deriving DecidableEq

/-- pool.connect(): lease an idle connection, or open a fresh one when
none is idle. -/
def poolConnect (st : DbState) : Nat × DbState :=
  match st.avail with
  | c :: rest => (c, { st with avail := rest })
  | [] => (st.nextId, { st with nextId := st.nextId + 1 })

/-- client.release(): return a leased connection to the idle pool. -/
def releaseClient (c : Nat) (st : DbState) : DbState :=
  { st with avail := c :: st.avail }

/-- query of source lines 177-180: route a statement to the bound
leased connection when a transaction is open, else to the pool. -/
def query (env : PoolEnv) (st : DbState) (text : String) :
    Except String PgResult × List Effect :=
  match st.tx with
  | some c => (env.clientResult c text, [Effect.clientQuery c text])
  | none => (env.poolResult text, [Effect.poolQuery text])

/-- exec of source lines 182-224: the control pseudo-statement state
machine.  Returns the outcome, the new state, and the trace of
commands issued. -/
def exec (env : PoolEnv) (st : DbState) (sql : String) :
    Except String Unit × DbState × List Effect :=
  let upper := normalizeSqlText sql
  if upper = "BEGIN" ∨ upper = "BEGIN TRANSACTION" then
    match st.tx with
    | some _ => (Except.error ("Transaction already started"), st, [])
    | none =>
      let p := poolConnect st
      match env.clientResult p.1 ("BEGIN") with
      | Except.error e =>
        -- source lines 191-194: release the lease, then rethrow
        (Except.error e, releaseClient p.1 p.2, [Effect.clientQuery p.1 ("BEGIN")])
      | Except.ok _ =>
        (Except.ok (), { p.2 with tx := some p.1 }, [Effect.clientQuery p.1 ("BEGIN")])
  else if upper = "COMMIT" then
    match st.tx with
    | none => (Except.ok (), st, [])
    | some c =>
      -- source lines 202-207: the release and the cleared binding are
      -- in a finally block, so they happen in either outcome
      match env.clientResult c ("COMMIT") with
      | Except.error e =>
        (Except.error e, { releaseClient c st with tx := none },
          [Effect.clientQuery c ("COMMIT")])
      | Except.ok _ =>
        (Except.ok (), { releaseClient c st with tx := none },
          [Effect.clientQuery c ("COMMIT")])
  else if upper = "ROLLBACK" then
    match st.tx with
    | none => (Except.ok (), st, [])
    | some c =>
      match env.clientResult c ("ROLLBACK") with
      | Except.error e =>
        (Except.error e, { releaseClient c st with tx := none },
          [Effect.clientQuery c ("ROLLBACK")])
      | Except.ok _ =>
        (Except.ok (), { releaseClient c st with tx := none },
          [Effect.clientQuery c ("ROLLBACK")])
  else
    let q := query env st sql
    (q.1.map fun _ => (), st, q.2)

/-- The pass-through behaviour of exec for a non-control statement
(source line 223): the raw text goes to query, the state is untouched,
the result is awaited and discarded. -/
def passThrough (env : PoolEnv) (st : DbState) (sql : String) :
    Except String Unit × DbState × List Effect :=
  let q := query env st sql
  (q.1.map fun _ => (), st, q.2)

/-- The texts exec recognizes as control pseudo-statements. -/
def isControlText (sql : String) : Bool :=
  let u := normalizeSqlText sql
  u = "BEGIN" || u = "BEGIN TRANSACTION" || u = "COMMIT" || u = "ROLLBACK"

example : normalizeSqlText ("commit;") = "COMMIT" := by decide
example : normalizeSqlText ("  BEGIN  ") = "BEGIN" := by decide
example : normalizeSqlText ("  begin transaction;; ") = "BEGIN TRANSACTION" := by decide
example : normalizeSqlText ("ROLLBACK ;") = "ROLLBACK " := by decide
example : isControlText ("ROLLBACK ;") = false := by decide

/-- An oracle whose every command fails. -/
def failEnv : PoolEnv :=
  { clientResult := fun _ _ => Except.error ("boom"),
    poolResult := fun _ => Except.error ("boom") }

/-- An oracle whose every command succeeds with one row of id 0. -/
def okEnv : PoolEnv :=
  { clientResult := fun _ _ => Except.ok { rowCount := some 0, rows := [] },
    poolResult := fun _ => Except.ok { rowCount := some 0, rows := [] } }

/-- C2: on COMMIT or ROLLBACK with a leased connection bound to the
call chain, the connection is always released back to the pool and
the binding cleared, in the failing outcome of the native command as
well as in the successful one, and the native error still propagates:
the outcome is exactly the outcome of the native command with its
result discarded. -/
theorem C2_commit_rollback_always_release (env : PoolEnv) (st : DbState)
    (sql : String) (c : Nat) (htx : st.tx = some c)
    (hu : normalizeSqlText sql = "COMMIT" ∨ normalizeSqlText sql = "ROLLBACK") :
    exec env st sql =
      ((env.clientResult c (normalizeSqlText sql)).map (fun _ => ()),
        { tx := none, avail := c :: st.avail, nextId := st.nextId },
        [Effect.clientQuery c (normalizeSqlText sql)]) := by
  rcases hu with hu | hu <;>
    rcases hres : env.clientResult c (normalizeSqlText sql) with e | r <;>
    rw [hu] at hres ⊢ <;>
    simp [exec, hu, htx, hres, releaseClient, Except.map]

/-- Witness for C2: a concrete commit whose native command fails still
releases connection 7 to the pool and clears the binding, and the
error comes back. -/
theorem C2_witness :
    exec failEnv { tx := some 7, avail := [3], nextId := 9 } ("commit;")
      = (Except.error ("boom"),
          { tx := none, avail := [7, 3], nextId := 9 },
          [Effect.clientQuery 7 ("COMMIT")]) := by
  have hn : normalizeSqlText ("commit;") = "COMMIT" := by decide
  have h := C2_commit_rollback_always_release failEnv
    { tx := some 7, avail := [3], nextId := 9 } ("commit;") 7 rfl (Or.inl hn)
  rw [hn] at h
  exact h

/-- C5: BEGIN while a transaction is already open raises the error
Transaction already started, leaves the state (binding and pool)
untouched and issues no command. -/
theorem C5_begin_while_open_errors (env : PoolEnv) (st : DbState)
    (sql : String) (c : Nat) (htx : st.tx = some c)
    (hu : normalizeSqlText sql = "BEGIN" ∨
      normalizeSqlText sql = "BEGIN TRANSACTION") :
    exec env st sql = (Except.error ("Transaction already started"), st, []) := by
  rcases hu with hu | hu <;> simp [exec, hu, htx]

/-- Witness for C5 at a concrete state. -/
theorem C5_witness :
    exec okEnv { tx := some 4, avail := [5], nextId := 6 } ("  BEGIN  ")
      = (Except.error ("Transaction already started"),
          { tx := some 4, avail := [5], nextId := 6 }, []) := by
  exact C5_begin_while_open_errors okEnv
    { tx := some 4, avail := [5], nextId := 6 } ("  BEGIN  ") 4 rfl
    (Or.inl (by decide))

/-- C6: when BEGIN leases a connection and the native begin command
fails, the connection is released back to the pool, the error
propagates, the call chain stays unbound, the next lease reuses the
released connection, and a subsequent BEGIN whose native command
succeeds returns successfully. -/
theorem C6_failed_begin_releases_lease (env : PoolEnv) (st : DbState)
    (sql : String) (e : String) (htx : st.tx = none)
    (hu : normalizeSqlText sql = "BEGIN" ∨
      normalizeSqlText sql = "BEGIN TRANSACTION")
    (hfail : env.clientResult (poolConnect st).1 ("BEGIN") = Except.error e) :
    exec env st sql
        = (Except.error e, releaseClient (poolConnect st).1 (poolConnect st).2,
            [Effect.clientQuery (poolConnect st).1 ("BEGIN")])
      ∧ (releaseClient (poolConnect st).1 (poolConnect st).2).tx = none
      ∧ (poolConnect (releaseClient (poolConnect st).1 (poolConnect st).2)).1
          = (poolConnect st).1
      ∧ ∀ (env2 : PoolEnv) (r : PgResult),
          env2.clientResult (poolConnect st).1 ("BEGIN") = Except.ok r →
          (exec env2 (releaseClient (poolConnect st).1 (poolConnect st).2)
            ("BEGIN")).1 = Except.ok () := by
  have htx2 : (poolConnect st).2.tx = st.tx := by
    unfold poolConnect
    cases st.avail <;> rfl
  refine ⟨?_, ?_, ?_, ?_⟩
  · rcases hu with hu | hu <;> simp [exec, hu, htx, hfail]
  · simp [releaseClient, htx2, htx]
  · rfl
  · intro env2 r h2
    have htx3 : (releaseClient (poolConnect st).1 (poolConnect st).2).tx = none := by
      simp [releaseClient, htx2, htx]
    have hc : (poolConnect (releaseClient (poolConnect st).1 (poolConnect st).2)).1
        = (poolConnect st).1 := rfl
    have hnb : normalizeSqlText ("BEGIN") = "BEGIN" := by decide
    simp [exec, hnb, htx3, hc, h2]

/-- An oracle whose every command fails with the message bang. -/
def beginFailEnv : PoolEnv :=
  { clientResult := fun _ _ => Except.error ("bang"),
    poolResult := fun _ => Except.error ("bang") }

/-- Witness for C6: a failed BEGIN on an empty pool opens connection 0,
fails, releases it, and a retry against a succeeding oracle is ok. -/
theorem C6_witness :
    exec beginFailEnv { tx := none, avail := [], nextId := 0 } ("BEGIN")
        = (Except.error ("bang"), { tx := none, avail := [0], nextId := 1 },
            [Effect.clientQuery 0 ("BEGIN")])
      ∧ (exec okEnv { tx := none, avail := [0], nextId := 1 } ("BEGIN")).1
          = Except.ok () := by
  have h := C6_failed_begin_releases_lease beginFailEnv
    { tx := none, avail := [], nextId := 0 } ("BEGIN") ("bang") rfl
    (Or.inl (by decide)) rfl
  exact ⟨h.1, h.2.2.2 okEnv { rowCount := some 0, rows := [] } rfl⟩

/-- C7: COMMIT or ROLLBACK while no transaction is open is a
successful no-op: no error, no command issued, state unchanged. -/
theorem C7_commit_rollback_idle_noop (env : PoolEnv) (st : DbState)
    (sql : String) (htx : st.tx = none)
    (hu : normalizeSqlText sql = "COMMIT" ∨ normalizeSqlText sql = "ROLLBACK") :
    exec env st sql = (Except.ok (), st, []) := by
  rcases hu with hu | hu <;> simp [exec, hu, htx]

/-- Witness for C7 at a concrete state, with an oracle that would fail
any command that were issued. -/
theorem C7_witness :
    exec failEnv { tx := none, avail := [2], nextId := 3 } ("rollback;;")
      = (Except.ok (), { tx := none, avail := [2], nextId := 3 }, []) := by
  exact C7_commit_rollback_idle_noop failEnv
    { tx := none, avail := [2], nextId := 3 } ("rollback;;") rfl
    (Or.inr (by decide))

/-- C4 counterexample: the statement ROLLBACK followed by a space and
a semicolon is not recognized as a control pseudo-statement, contrary
to the claim that a keyword followed by whitespace and semicolons is:
inside a transaction it is passed through verbatim to the bound
connection and the lease stays bound, where the claimed rollback
control behaviour would clear the binding and release the lease. -/
theorem C4_counterexample_rollback_semicolon :
    exec okEnv { tx := some 0, avail := [], nextId := 1 } ("ROLLBACK ;")
        = (Except.ok (), { tx := some 0, avail := [], nextId := 1 },
            [Effect.clientQuery 0 ("ROLLBACK ;")])
      ∧ isControlText ("ROLLBACK ;") = false := by
  constructor
  · rfl
  · decide

/-- C4 amended: exec treats an input as a control pseudo-statement
exactly when its trimmed, trailing-semicolon-stripped text equals
case-insensitively BEGIN, BEGIN TRANSACTION, COMMIT or ROLLBACK, and
passes every other input through to ordinary execution unaffected;
statements such as commit; or whitespace-surrounded BEGIN are
recognized, but whitespace between the keyword and a trailing
semicolon (as in ROLLBACK-space-semicolon) defeats the stripping, so
such a statement is not recognized and passes through. -/
theorem C4_control_recognition_amended :
    (∀ (env : PoolEnv) (st : DbState) (sql : String),
        exec env st sql = passThrough env st sql ↔ isControlText sql = false)
      ∧ isControlText ("commit;") = true
      ∧ isControlText ("  BEGIN  ") = true
      ∧ isControlText ("ROLLBACK ;") = false := by
  refine ⟨?_, by decide, by decide, by decide⟩
  intro env st sql
  constructor
  · intro h
    by_contra hc
    rw [Bool.not_eq_false] at hc
    simp only [isControlText, Bool.or_eq_true, decide_eq_true_eq] at hc
    rcases hc with ((hb | hb) | hb) | hb
    · cases htx : st.tx with
      | some c =>
        have h3 := congrArg (fun t => t.2.2) h
        simp [exec, passThrough, query, hb, htx] at h3
      | none =>
        have h3 := congrArg (fun t => t.2.2) h
        rcases hres : env.clientResult (poolConnect st).1 ("BEGIN") with e | r <;>
          simp [exec, passThrough, query, hb, htx, hres] at h3
    · cases htx : st.tx with
      | some c =>
        have h3 := congrArg (fun t => t.2.2) h
        simp [exec, passThrough, query, hb, htx] at h3
      | none =>
        have h3 := congrArg (fun t => t.2.2) h
        rcases hres : env.clientResult (poolConnect st).1 ("BEGIN") with e | r <;>
          simp [exec, passThrough, query, hb, htx, hres] at h3
    · cases htx : st.tx with
      | none =>
        have h3 := congrArg (fun t => t.2.2) h
        simp [exec, passThrough, query, hb, htx] at h3
      | some c =>
        have h3 := congrArg (fun t => t.2.1.tx) h
        rcases hres : env.clientResult c ("COMMIT") with e | r <;>
          simp [exec, passThrough, query, hb, htx, hres] at h3
    · cases htx : st.tx with
      | none =>
        have h3 := congrArg (fun t => t.2.2) h
        simp [exec, passThrough, query, hb, htx] at h3
      | some c =>
        have h3 := congrArg (fun t => t.2.1.tx) h
        rcases hres : env.clientResult c ("ROLLBACK") with e | r <;>
          simp [exec, passThrough, query, hb, htx, hres] at h3
  · intro h
    simp only [isControlText, Bool.or_eq_false_iff, decide_eq_false_iff_not] at h
    obtain ⟨⟨⟨h1, h2⟩, h3⟩, h4⟩ := h
    simp [exec, passThrough, h1, h2, h3, h4]

/- Insert-Key Emulator (source lines 141-146 and 226-241). -/

/-- The test of the source regex caret-insert-whitespace with the
case-insensitive flag: the first six characters spell insert in either
case and the seventh is whitespace. -/
def matchesInsertHead : List Char → Bool
  | c1 :: c2 :: c3 :: c4 :: c5 :: c6 :: w :: _ =>
    c1.toLower == 'i' && c2.toLower == 'n' && c3.toLower == 's' &&
    c4.toLower == 'e' && c5.toLower == 'r' && c6.toLower == 't' &&
    w.isWhitespace
  | _ => false

/-- The head test of the source regex returning-then-whitespace with
the case-insensitive flag. -/
def matchesReturningHead : List Char → Bool
  | c1 :: c2 :: c3 :: c4 :: c5 :: c6 :: c7 :: c8 :: c9 :: w :: _ =>
    c1.toLower == 'r' && c2.toLower == 'e' && c3.toLower == 't' &&
    c4.toLower == 'u' && c5.toLower == 'r' && c6.toLower == 'n' &&
    c7.toLower == 'i' && c8.toLower == 'n' && c9.toLower == 'g' &&
    w.isWhitespace
  | _ => false

/-- The returning regex tested at every position of the text. -/
def hasReturningMatch : List Char → Bool
  | [] => false
  | c :: rest => matchesReturningHead (c :: rest) || hasReturningMatch rest

/-- isInsertNeedingReturningId (source lines 141-146). -/
def isInsertNeedingReturningId (sql : String) : Bool :=
  let s := jsTrim sql
  if !matchesInsertHead s.data then false
  else if hasReturningMatch s.data then false
  else true

/-- The result record of run: affected count and optional generated
identifier; none models the absent field of the JS record spread. -/
structure RunResult where
  changes : Nat
  lastID : Option Int
deriving DecidableEq

/-- run of source lines 226-241 for the client-server backend: the
statement is translated, the RETURNING id clause appended when
eligible, the text routed through query, and the generated id
surfaced when the clause was appended and the first row has a
non-null id (coerced to a number by the source; the oracle already
reports it as a number).  Bound parameter values do not influence
what this layer decides, so the oracle reads the text only. -/
def run (env : PoolEnv) (st : DbState) (sql : String) :
    Except String RunResult × List Effect :=
  let text0 := replaceQMarksWithPgParams sql
  let returning := isInsertNeedingReturningId text0
  let text := if returning then text0 ++ " RETURNING id" else text0
  match query env st text with
  | (Except.error e, effs) => (Except.error e, effs)
  | (Except.ok r, effs) =>
    (Except.ok
      { changes := r.rowCount.getD 0,
        lastID := if returning then r.rows.head?.bind PgRow.id else none },
      effs)

/-- The claim side of the INSERT test: the text begins with the six
letters of insert in either case followed by a whitespace character. -/
def InsertLeadingToken (s : String) : Prop :=
  ∃ c1 c2 c3 c4 c5 c6 w rest,
    s.data = c1 :: c2 :: c3 :: c4 :: c5 :: c6 :: w :: rest ∧
    c1.toLower = 'i' ∧ c2.toLower = 'n' ∧ c3.toLower = 's' ∧
    c4.toLower = 'e' ∧ c5.toLower = 'r' ∧ c6.toLower = 't' ∧
    w.isWhitespace = true

/-- The claim side of the RETURNING test: somewhere in the text the
nine letters of returning in either case are followed by a whitespace
character. -/
def ReturningTokenSomewhere (s : String) : Prop :=
  ∃ pre suf, s.data = pre ++ suf ∧
    ∃ c1 c2 c3 c4 c5 c6 c7 c8 c9 w rest,
      suf = c1 :: c2 :: c3 :: c4 :: c5 :: c6 :: c7 :: c8 :: c9 :: w :: rest ∧
      c1.toLower = 'r' ∧ c2.toLower = 'e' ∧ c3.toLower = 't' ∧
      c4.toLower = 'u' ∧ c5.toLower = 'r' ∧ c6.toLower = 'n' ∧
      c7.toLower = 'i' ∧ c8.toLower = 'n' ∧ c9.toLower = 'g' ∧
      w.isWhitespace = true

theorem matchesInsertHead_iff (l : List Char) :
    matchesInsertHead l = true ↔
      ∃ c1 c2 c3 c4 c5 c6 w rest,
        l = c1 :: c2 :: c3 :: c4 :: c5 :: c6 :: w :: rest ∧
        c1.toLower = 'i' ∧ c2.toLower = 'n' ∧ c3.toLower = 's' ∧
        c4.toLower = 'e' ∧ c5.toLower = 'r' ∧ c6.toLower = 't' ∧
        w.isWhitespace = true := by
  constructor
  · intro h
    rcases l with _ | ⟨c1, _ | ⟨c2, _ | ⟨c3, _ | ⟨c4, _ | ⟨c5, _ | ⟨c6, _ | ⟨w, rest⟩⟩⟩⟩⟩⟩⟩ <;>
      simp [matchesInsertHead] at h
    obtain ⟨⟨⟨⟨⟨⟨h1, h2⟩, h3⟩, h4⟩, h5⟩, h6⟩, h7⟩ := h
    exact ⟨c1, c2, c3, c4, c5, c6, w, rest, rfl, h1, h2, h3, h4, h5, h6, h7⟩
  · rintro ⟨c1, c2, c3, c4, c5, c6, w, rest, rfl, h1, h2, h3, h4, h5, h6, h7⟩
    simp [matchesInsertHead, h1, h2, h3, h4, h5, h6, h7]

theorem matchesReturningHead_iff (l : List Char) :
    matchesReturningHead l = true ↔
      ∃ c1 c2 c3 c4 c5 c6 c7 c8 c9 w rest,
        l = c1 :: c2 :: c3 :: c4 :: c5 :: c6 :: c7 :: c8 :: c9 :: w :: rest ∧
        c1.toLower = 'r' ∧ c2.toLower = 'e' ∧ c3.toLower = 't' ∧
        c4.toLower = 'u' ∧ c5.toLower = 'r' ∧ c6.toLower = 'n' ∧
        c7.toLower = 'i' ∧ c8.toLower = 'n' ∧ c9.toLower = 'g' ∧
        w.isWhitespace = true := by
  constructor
  · intro h
    rcases l with _ | ⟨c1, _ | ⟨c2, _ | ⟨c3, _ | ⟨c4, _ | ⟨c5, _ | ⟨c6, _ | ⟨c7, _ |
      ⟨c8, _ | ⟨c9, _ | ⟨w, rest⟩⟩⟩⟩⟩⟩⟩⟩⟩⟩ <;>
      simp [matchesReturningHead] at h
    obtain ⟨⟨⟨⟨⟨⟨⟨⟨⟨h1, h2⟩, h3⟩, h4⟩, h5⟩, h6⟩, h7⟩, h8⟩, h9⟩, h10⟩ := h
    exact ⟨c1, c2, c3, c4, c5, c6, c7, c8, c9, w, rest, rfl,
      h1, h2, h3, h4, h5, h6, h7, h8, h9, h10⟩
  · rintro ⟨c1, c2, c3, c4, c5, c6, c7, c8, c9, w, rest, rfl,
      h1, h2, h3, h4, h5, h6, h7, h8, h9, h10⟩
    simp [matchesReturningHead, h1, h2, h3, h4, h5, h6, h7, h8, h9, h10]

theorem hasReturningMatch_iff (l : List Char) :
    hasReturningMatch l = true ↔
      ∃ pre suf, l = pre ++ suf ∧ matchesReturningHead suf = true := by
  induction l with
  | nil =>
    simp only [hasReturningMatch]
    constructor
    · intro h; exact absurd h (by simp)
    · rintro ⟨pre, suf, heq, hm⟩
      rcases List.append_eq_nil.mp heq.symm with ⟨h1, h2⟩
      subst h2
      simp [matchesReturningHead] at hm
  | cons c rest ih =>
    simp only [hasReturningMatch, Bool.or_eq_true]
    constructor
    · rintro (h | h)
      · exact ⟨[], c :: rest, rfl, h⟩
      · obtain ⟨pre, suf, heq, hm⟩ := ih.mp h
        exact ⟨c :: pre, suf, by simp [heq], hm⟩
    · rintro ⟨pre, suf, heq, hm⟩
      rcases pre with _ | ⟨c2, pre2⟩
      · simp only [List.nil_append] at heq
        subst heq
        exact Or.inl hm
      · simp only [List.cons_append, List.cons.injEq] at heq
        exact Or.inr (ih.mpr ⟨pre2, suf, heq.2, hm⟩)

theorem insertLeadingToken_iff (s : String) :
    InsertLeadingToken s ↔ matchesInsertHead s.data = true := by
  rw [matchesInsertHead_iff]
  exact Iff.rfl

theorem returningTokenSomewhere_iff (s : String) :
    ReturningTokenSomewhere s ↔ hasReturningMatch s.data = true := by
  rw [hasReturningMatch_iff]
  constructor
  · rintro ⟨pre, suf, heq, hsuf⟩
    exact ⟨pre, suf, heq, (matchesReturningHead_iff suf).mpr hsuf⟩
  · rintro ⟨pre, suf, heq, hm⟩
    exact ⟨pre, suf, heq, (matchesReturningHead_iff suf).mp hm⟩

/-- C3: run appends the RETURNING id clause exactly when the
translated statement, after trimming, begins with an INSERT token and
contains no RETURNING token anywhere in its text (so a statement
already carrying RETURNING is never rewritten twice and a non-INSERT
never rewritten); the statement actually sent carries the clause
exactly in that case, and on success the returned record carries the
first row id as the generated identifier exactly when the clause was
appended and that id is non-null. -/
theorem C3_run_returning_id (env : PoolEnv) (st : DbState) (sql : String) :
    (isInsertNeedingReturningId (replaceQMarksWithPgParams sql) = true
        ↔ InsertLeadingToken (jsTrim (replaceQMarksWithPgParams sql))
          ∧ ¬ReturningTokenSomewhere (jsTrim (replaceQMarksWithPgParams sql)))
      ∧ (run env st sql).2
          = (match st.tx with
              | some c => [Effect.clientQuery c
                  (if isInsertNeedingReturningId (replaceQMarksWithPgParams sql)
                    then replaceQMarksWithPgParams sql ++ " RETURNING id"
                    else replaceQMarksWithPgParams sql)]
              | none => [Effect.poolQuery
                  (if isInsertNeedingReturningId (replaceQMarksWithPgParams sql)
                    then replaceQMarksWithPgParams sql ++ " RETURNING id"
                    else replaceQMarksWithPgParams sql)])
      ∧ ∀ r : PgResult,
          (query env st
            (if isInsertNeedingReturningId (replaceQMarksWithPgParams sql)
              then replaceQMarksWithPgParams sql ++ " RETURNING id"
              else replaceQMarksWithPgParams sql)).1 = Except.ok r →
          (run env st sql).1 = Except.ok
            { changes := r.rowCount.getD 0,
              lastID := if isInsertNeedingReturningId (replaceQMarksWithPgParams sql)
                then r.rows.head?.bind PgRow.id else none } := by
  refine ⟨?_, ?_, ?_⟩
  · rw [insertLeadingToken_iff, returningTokenSomewhere_iff]
    simp only [isInsertNeedingReturningId]
    by_cases h1 : matchesInsertHead (jsTrim (replaceQMarksWithPgParams sql)).data = true <;>
      by_cases h2 : hasReturningMatch (jsTrim (replaceQMarksWithPgParams sql)).data = true <;>
      simp [h1, h2]
  · cases htx : st.tx with
    | some c =>
      rcases hres : env.clientResult c
          (if isInsertNeedingReturningId (replaceQMarksWithPgParams sql)
            then replaceQMarksWithPgParams sql ++ " RETURNING id"
            else replaceQMarksWithPgParams sql) with e | r <;>
        simp [run, query, htx, hres]
    | none =>
      rcases hres : env.poolResult
          (if isInsertNeedingReturningId (replaceQMarksWithPgParams sql)
            then replaceQMarksWithPgParams sql ++ " RETURNING id"
            else replaceQMarksWithPgParams sql) with e | r <;>
        simp [run, query, htx, hres]
  · intro r hr
    rcases hq : query env st
        (if isInsertNeedingReturningId (replaceQMarksWithPgParams sql)
          then replaceQMarksWithPgParams sql ++ " RETURNING id"
          else replaceQMarksWithPgParams sql) with ⟨res, effs⟩
    rw [hq] at hr
    simp only at hr
    simp [run, hq, hr]

/-- An oracle returning one row with id 42 and one affected row. -/
def rowEnv : PoolEnv :=
  { clientResult := fun _ _ =>
      Except.ok { rowCount := some 1, rows := [{ id := some 42 }] },
    poolResult := fun _ =>
      Except.ok { rowCount := some 1, rows := [{ id := some 42 }] } }

/-- Witness for C3: a concrete INSERT gets the clause appended and the
returned record carries the generated id 42. -/
theorem C3_witness :
    (run rowEnv { tx := none, avail := [], nextId := 0 }
        ("INSERT INTO consultants (name) VALUES (?)")).1
      = Except.ok { changes := 1, lastID := some 42 } := by
  have h := C3_run_returning_id rowEnv { tx := none, avail := [], nextId := 0 }
    ("INSERT INTO consultants (name) VALUES (?)")
  have h3 := h.2.2 { rowCount := some 1, rows := [{ id := some 42 }] } rfl
  exact h3

/- Backend Selector (source lines 15-22). -/

inductive Dialect where
  | postgres
  | sqlite
deriving DecidableEq

/-- The configuration signals resolveDialect reads; none models an
unset variable. -/
structure DialectEnv where
  dbDialect : Option String
  databaseUrl : Option String
  pgHost : Option String

/-- Truthiness of a string-valued environment variable in JS: set and
nonempty. -/
def envTruthy : Option String → Bool
  | none => false
  | some s => !s.isEmpty

/-- ASCII model of toLowerCase. -/
def jsToLower (s : String) : String := ⟨s.data.map Char.toLower⟩

/-- The explicit override of source line 16: read, defaulted to the
empty string, trimmed, lowercased. -/
def explicitDialect (env : DialectEnv) : String :=
  jsToLower (jsTrim (env.dbDialect.getD ("")))

/-- resolveDialect (source lines 15-22). -/
def resolveDialect (env : DialectEnv) : Dialect :=
  let explicit := explicitDialect env
  if explicit = "postgres" ∨ explicit = "postgresql" ∨ explicit = "pg" then
    Dialect.postgres
  else if explicit = "sqlite" ∨ explicit = "sqlite3" then
    Dialect.sqlite
  else if envTruthy env.databaseUrl || envTruthy env.pgHost then
    Dialect.postgres
  else
    Dialect.sqlite

/-- C8: backend selection resolves to exactly one kind by priority:
an explicit override naming either engine by an accepted alias wins;
otherwise presence (set and nonempty) of the connection-string or
host variable selects the client-server engine; otherwise the
embedded engine.  Stated as a characterization of each outcome. -/
theorem C8_backend_selection_priority (env : DialectEnv) :
    (resolveDialect env = Dialect.postgres ↔
      ((explicitDialect env = "postgres" ∨ explicitDialect env = "postgresql"
          ∨ explicitDialect env = "pg")
        ∨ (¬(explicitDialect env = "postgres" ∨ explicitDialect env = "postgresql"
              ∨ explicitDialect env = "pg")
            ∧ ¬(explicitDialect env = "sqlite" ∨ explicitDialect env = "sqlite3")
            ∧ (envTruthy env.databaseUrl = true ∨ envTruthy env.pgHost = true))))
      ∧ (resolveDialect env = Dialect.sqlite ↔
        ¬(resolveDialect env = Dialect.postgres)) := by
  constructor
  · unfold resolveDialect
    split_ifs <;> simp_all <;> tauto
  · cases hr : resolveDialect env <;> simp

/- SSL policy of the client-server backend (source lines 30-41 and
167-173). -/

/-- Oracle for the platform URL parser: the source builds a URL value
from the connection string and reads its sslmode query parameter.
none models the constructor throwing (the catch branch); some q
models success, q being the parameter value (none when absent). -/
structure UrlParse where
  sslmode : String → Option (Option String)

/-- shouldUseSsl (source lines 30-41); the variables DB_SSL and
PGSSLMODE and the connection string argument are passed explicitly. -/
def shouldUseSsl (urlp : UrlParse)
    (dbSsl pgSslMode connectionString : Option String) : Bool :=
  if dbSsl = some ("1") then true
  else if jsToLower (pgSslMode.getD ("")) = "require" then true
  else if envTruthy connectionString = false then false
  else
    match urlp.sslmode (connectionString.getD ("")) with
    | none => false
    | some m =>
      let sm := jsToLower (m.getD (""))
      sm = "require" || sm = "verify-full" || sm = "verify-ca"

/-- The ssl option handed to the pool constructor (source line 170). -/
structure SslConfig where
  rejectUnauthorized : Bool
deriving DecidableEq

/-- The ssl field of the pool configuration built by createDb: when
SSL is on, certificate verification is permissive (unauthorized
certificates are not rejected); otherwise the option is absent. -/
def poolSslSetting (urlp : UrlParse)
    (dbSsl pgSslMode connectionString : Option String) : Option SslConfig :=
  if shouldUseSsl urlp dbSsl pgSslMode connectionString then
    some { rejectUnauthorized := false }
  else none

/-- C9: SSL is enabled exactly when the explicit flag is set to 1, or
the SSL-mode variable lowercases to require, or the connection string
is present and parses with an sslmode query parameter of require,
verify-full or verify-ca (so an unparsable connection string leaves
SSL disabled); and the pool is configured with permissive certificate
verification exactly when SSL is enabled. -/
theorem C9_ssl_enablement (urlp : UrlParse)
    (dbSsl pgSslMode cs : Option String) :
    (shouldUseSsl urlp dbSsl pgSslMode cs = true ↔
      dbSsl = some ("1")
      ∨ jsToLower (pgSslMode.getD ("")) = "require"
      ∨ (envTruthy cs = true
          ∧ ∃ m, urlp.sslmode (cs.getD ("")) = some m
            ∧ (jsToLower (m.getD ("")) = "require"
              ∨ jsToLower (m.getD ("")) = "verify-full"
              ∨ jsToLower (m.getD ("")) = "verify-ca")))
    ∧ (poolSslSetting urlp dbSsl pgSslMode cs
          = some { rejectUnauthorized := false }
        ↔ shouldUseSsl urlp dbSsl pgSslMode cs = true)
    ∧ (poolSslSetting urlp dbSsl pgSslMode cs = none
        ↔ shouldUseSsl urlp dbSsl pgSslMode cs = false) := by
  refine ⟨?_, ?_, ?_⟩
  · unfold shouldUseSsl
    split_ifs with h1 h2 h3
    · simp [h1]
    · simp [h1, h2]
    · -- connection string falsy: everything on the right fails
      simp only [Bool.eq_false_iff, ne_eq] at h3
      constructor
      · intro h; exact absurd h (by simp)
      · rintro (h | h | ⟨hcs, _⟩)
        · exact absurd h h1
        · exact absurd h h2
        · rw [Bool.not_eq_true] at h3
          rw [h3] at hcs
          exact absurd hcs (by simp)
    · rcases hm : urlp.sslmode (cs.getD ("")) with _ | m
      · simp only [hm]
        constructor
        · intro h; exact absurd h (by simp)
        · rintro (h | h | ⟨hcs, m2, hm2, _⟩)
          · exact absurd h h1
          · exact absurd h h2
          · exact absurd hm2 (by simp)
      · simp only [hm, Bool.or_eq_true, decide_eq_true_eq]
        constructor
        · intro h
          refine Or.inr (Or.inr ⟨?_, m, rfl, ?_⟩)
          · cases hcs2 : envTruthy cs with
            | false => exact absurd hcs2 h3
            | true => rfl
          · tauto
        · rintro (h | h | ⟨hcs, m2, hm2, hmode⟩)
          · exact absurd h h1
          · exact absurd h h2
          · injection hm2 with hm3
            subst hm3
            tauto
  · unfold poolSslSetting
    split_ifs with h <;> simp [h]
  · unfold poolSslSetting
    split_ifs with h <;> simp [h]

end DashDb
